import Mathlib

/-
Verification development for the pytimetk rolling-window augmentation engine
(src/pytimetk/feature_engineering/rolling.py) and the exponentially-weighted
moving collaborator (src/pytimetk/finance/exponential.py).

The Python code is shallowly embedded: a pandas DataFrame becomes a `Frame`
(a stable row index plus named columns of optional rationals, `none` standing
for a missing value / NaN), pure numeric code becomes functions on `List ℚ`,
and code that raises becomes `Except`.  Because the Python engine mutates its
group frame in place, an error value carries the frame state at the moment of
the raise, so that "what had already been computed when the error fired" is
observable in the model.
-/

set_option autoImplicit false

namespace PyTimeTk

/-- Model of a pandas DataFrame: a stable row identity list (the index) plus
named columns.  A cell is `Option ℚ`; `none` models NaN / a missing value. -/
structure Frame where
  index : List Nat
  cols : List (String × List (Option ℚ))
  deriving DecidableEq, Repr

/-- Column selection `df[col]`.  A missing column yields the empty list
(the embedded programs only read columns they know to exist). -/
def Frame.get (df : Frame) (c : String) : List (Option ℚ) :=
  match df.cols.lookup c with
  | some v => v
  | none => []

/-- Column assignment `df[col] = v`: replaces the column in place when the
name exists, otherwise appends it on the right, as pandas does. -/
def Frame.setCol (df : Frame) (c : String) (v : List (Option ℚ)) : Frame :=
  if df.cols.any (fun p => p.1 = c) then
    ⟨df.index, df.cols.map fun p => if p.1 = c then (c, v) else p⟩
  else
    ⟨df.index, df.cols ++ [(c, v)]⟩

/-- Row-wise `pd.concat` of two frames sharing the same column names. -/
def frameAppend (a b : Frame) : Frame :=
  ⟨a.index ++ b.index, a.cols.map fun p => (p.1, p.2 ++ b.get p.1)⟩

/-- Row-wise `pd.concat` of a list of frames sharing the same column names.
`pd.concat([df])` returns the single frame unchanged. -/
def pdConcat : List Frame → Frame
  | [] => ⟨[], []⟩
  | [f] => f
  | f :: rest => frameAppend f (pdConcat rest)

/-- Insert a (index value, row position) pair into a list sorted ascending by
the index value. -/
def insRow (p : Nat × Nat) : List (Nat × Nat) → List (Nat × Nat)
  | [] => [p]
  | q :: rest => if p.1 < q.1 then p :: q :: rest else q :: insRow p rest

/-- Sort (index value, row position) pairs ascending by index value. -/
def sortRows : List (Nat × Nat) → List (Nat × Nat)
  | [] => []
  | p :: rest => insRow p (sortRows rest)

/-- Model of `DataFrame.sort_index()`: reorder the rows of the frame so that
the index values are ascending. -/
def sortIndexFrame (df : Frame) : Frame :=
  let order := sortRows (df.index.zip (List.range df.index.length))
  ⟨order.map Prod.fst,
   df.cols.map fun c => (c.1, order.map fun p => c.2.getD p.2 none)⟩

/-- Whether an `Except` computation succeeded. -/
def okB {ε α : Type} : Except ε α → Bool
  | .ok _ => true
  | .error _ => false

/-- Arithmetic mean of a list of rationals (the `mean` reducer). -/
def qmean (l : List ℚ) : ℚ := l.sum / l.length

/-- Sum of a list of rationals (the `sum` reducer). -/
def qsum (l : List ℚ) : ℚ := l.sum

/-- Pandas fixed-window rolling aggregation,
`series.rolling(window=w, min_periods=mp, center=center).agg(g)`.
Window bounds follow pandas' fixed indexer: with `offset = (w-1)/2` when
centered and `0` otherwise, the window for row `i` is positions
`[i+1+offset-w, min (i+1+offset) n)`; the result at `i` is produced only when
the number of valid (non-missing) observations in the window reaches `mp`,
and the reducer is applied to those valid observations. -/
def pdRollingAgg (g : List ℚ → ℚ) (w mp : Nat) (center : Bool)
    (xs : List (Option ℚ)) : List (Option ℚ) :=
  let n := xs.length
  let offset := if center then (w - 1) / 2 else 0
  (List.range n).map fun i =>
    let s := i + 1 + offset - w
    let e := min (i + 1 + offset) n
    let valid := ((xs.drop s).take (e - s)).filterMap id
    if mp ≤ valid.length then some (g valid) else none

/-- Polars `Expr.rolling_mean(window_size=w, min_periods=mp)`: a trailing
window of up to `w` rows ending at the current row, producing a value only
when the count of valid observations in the window reaches `mp`. -/
def plRollingMean (w mp : Nat) (xs : List (Option ℚ)) : List (Option ℚ) :=
  (List.range xs.length).map fun i =>
    let valid := ((xs.take (i + 1)).drop (i + 1 - w)).filterMap id
    if mp ≤ valid.length then some (qmean valid) else none

/-- Embedding of `_rolling_apply(func, df, window_size, center, min_periods)`
from rolling.py.  The group's rows are a `List α` (`α` abstracts the row type,
a single value or a whole multi-column row); the result list holds an entry
per row, `none` where the window fails the minimum-period threshold.  Window
sizes are positive in every call the library makes, matching the `Nat`
subtractions here, which clip at zero exactly like Python's `max(0, _)`. -/
def rollingApplyG {α : Type} (func : List α → ℚ) (df : List α)
    (window_size : Nat) (center : Bool) (min_periods : Option Nat) :
    List (Option ℚ) :=
  let num_rows := df.length
  let mp := min_periods.getD window_size
  let adjusted_window := if center then window_size / 2 else window_size - 1
  (List.range num_rows).map fun center_point =>
    let se : Nat × Nat :=
      if center then
        if window_size % 2 = 0 then
          (center_point - adjusted_window,
           min num_rows (center_point + adjusted_window))
        else
          (center_point - adjusted_window,
           min num_rows (center_point + adjusted_window + 1))
      else
        (center_point - adjusted_window, center_point + 1)
    let window_df := (df.drop se.1).take (se.2 - se.1)
    if mp ≤ window_df.length then some (func window_df) else none

/-- Shapes the `window_func` argument of `augment_rolling` can take in the
embedding: a builtin name string, a well-formed `(label, callable)` pair whose
callable consumes the raw window values, a tuple whose length is not 2, or a
length-2 tuple whose first element is not a string.  (The `configurable`
wrapper tuples of the source are not exercised by any claim and are omitted
from the modelled input shapes.) -/
inductive WindowFunc where
  | str (name : String)
  | pair (label : String) (g : List ℚ → ℚ)
  | badTuple (len : Nat)
  | badFirst (descr : String)

/-- Shapes the `window` argument of `augment_rolling` can take: an int, a
`(lo, hi)` tuple, a list of ints, or a value of any other type. -/
inductive WindowSpec where
  | int (n : Nat)
  | tup (lo hi : Nat)
  | list (ns : List Nat)
  | other (descr : String)

/-- Embedding of the window normalisation at the top of `augment_rolling`:
an int becomes a singleton, a tuple `(lo, hi)` becomes `range(lo, hi+1)`, a
list is kept, and any other type raises a TypeError. -/
def normalizeWindow : WindowSpec → Except String (List Nat)
  | .int n => .ok [n]
  | .tup lo hi => .ok ((List.range (hi + 1 - lo)).map (lo + ·))
  | .list ns => .ok ns
  | .other _ => .error "window must be an integer, tuple, or list."

/-- The builtin pandas rolling reducers reachable by name through
`getattr(series.rolling(...), func, None)` that the model carries.  An
unmodelled or unknown name yields `none`, which the engine turns into the
Invalid function name error, as the source does for unknown names. -/
def pandasBuiltin : String → Option (List ℚ → ℚ)
  | "mean" => some qmean
  | "sum" => some qsum
  | "min" => some (fun l => (l.foldr min (l.headD 0)))
  | "max" => some (fun l => (l.foldr max (l.headD 0)))
  | _ => none

/-- One iteration of the innermost loop of `_process_single_roll`: apply one
window-function spec for value column `col`, window `w` and resolved
minimum-period `mp` to the group frame.  Malformed tuples raise; a raise
carries the frame as already mutated by the preceding units. -/
def applyRollFunc (col : String) (w mp : Nat) (center : Bool)
    (f : WindowFunc) (frame : Frame) : Except (String × Frame) Frame :=
  match f with
  | .badTuple k =>
      .error ("Expected tuple of length 2, but window_func received tuple of length "
                ++ toString k, frame)
  | .badFirst d =>
      .error ("Expected first element of tuple to be type str, but window_func received "
                ++ d, frame)
  | .pair label g =>
      .ok (frame.setCol (col ++ "_rolling_" ++ label ++ "_win_" ++ toString w)
            (pdRollingAgg g w mp center (frame.get col)))
  | .str name =>
      match pandasBuiltin name with
      | some g =>
          .ok (frame.setCol (col ++ "_rolling_" ++ name ++ "_win_" ++ toString w)
                (pdRollingAgg g w mp center (frame.get col)))
      | none => .error ("Invalid function name: " ++ name, frame)

/-- The `for func in window_func` loop of `_process_single_roll`. -/
def rollFuncs (col : String) (w mp : Nat) (center : Bool) :
    List WindowFunc → Frame → Except (String × Frame) Frame
  | [], frame => .ok frame
  | f :: rest, frame =>
      match applyRollFunc col w mp center f frame with
      | .error e => .error e
      | .ok fr => rollFuncs col w mp center rest fr

/-- The `for window_size in window` loop of `_process_single_roll`, threading
the `min_periods` variable exactly as the source does: the statement
`min_periods = window_size if min_periods is None else min_periods` resolves
it on the first window and the resolved value persists for every later
window (and every later value column). -/
def rollWindows (col : String) (center : Bool) (funcs : List WindowFunc) :
    List Nat → Option Nat → Frame → Except (String × Frame) (Frame × Option Nat)
  | [], mp, frame => .ok (frame, mp)
  | w :: rest, mp, frame =>
      match rollFuncs col w (mp.getD w) center funcs frame with
      | .error e => .error e
      | .ok fr => rollWindows col center funcs rest (some (mp.getD w)) fr

/-- The `for value_col in value_column` loop of `_process_single_roll`. -/
def rollCols (center : Bool) (funcs : List WindowFunc) (window : List Nat) :
    List String → Option Nat → Frame → Except (String × Frame) (Frame × Option Nat)
  | [], mp, frame => .ok (frame, mp)
  | c :: rest, mp, frame =>
      match rollWindows c center funcs window mp frame with
      | .error e => .error e
      | .ok (fr, mp') => rollCols center funcs window rest mp' fr

/-- Embedding of `_process_single_roll(group_df, value_column, window_func,
window, min_periods, center)`.  The source appends `group_df` to
`result_dfs` once per value column and finally concatenates; since every
append stores a reference to the one frame being mutated, the concatenation
sees the final frame state once per value column. -/
def processSingleRoll (group_df : Frame) (value_column : List String)
    (window_func : List WindowFunc) (window : List Nat)
    (min_periods : Option Nat) (center : Bool) : Except (String × Frame) Frame :=
  match rollCols center window_func window value_column min_periods group_df with
  | .error e => .error e
  | .ok (fr, _) => .ok (pdConcat (value_column.map fun _ => fr))

/-- Embedding of an `augment_rolling(..., engine='pandas')` call on a plain
(ungrouped) DataFrame: the window spec is validated and normalised up front
in `augment_rolling` (before the engine is invoked, hence the error carries
the untouched input frame), then `_augment_rolling_pandas` processes the
whole table as one group and finishes with
`pd.concat(result_dfs).sort_index()`. -/
def augmentRollingPandasUngrouped (df : Frame) (value_column : List String)
    (window_func : List WindowFunc) (ws : WindowSpec)
    (min_periods : Option Nat) (center : Bool) : Except (String × Frame) Frame :=
  match normalizeWindow ws with
  | .error e => .error (e, df)
  | .ok window =>
      match processSingleRoll df value_column window_func window min_periods center with
      | .error e => .error e
      | .ok r => .ok (sortIndexFrame (pdConcat [r]))

/-- The rolling-mean expression `_augment_rolling_polars` builds for a
string-named `mean` (rolling.py line 424): `rolling_mean(window_size=w,
min_periods=mp)`.  The engine receives the `center` flag but never forwards
it to the expression, so the expression is trailing regardless of it. -/
def polarsEngineMeanExpr (w : Nat) (min_periods : Option Nat) (_center : Bool)
    (xs : List (Option ℚ)) : List (Option ℚ) :=
  plRollingMean w (min_periods.getD w) xs

/-- Shapes the `window_func` argument of `augment_rolling_apply` can take: a
well-formed `(label, callable)` tuple whose callable consumes the window's
rows (a multi-column sub-table, modelled as `List (List ℚ)`), or a value that
is not a tuple at all. -/
inductive ApplyFunc where
  | tup2 (label : String) (g : List (List ℚ) → ℚ)
  | notTuple (descr : String)

/-- Python dict assignment `m[k] = v` on an insertion-ordered dict: update in
place when the key exists, append otherwise. -/
def dictSet {α : Type} (m : List (String × α)) (k : String) (v : α) :
    List (String × α) :=
  if m.any (fun p => p.1 = k) then
    m.map fun p => if p.1 = k then (k, v) else p
  else
    m ++ [(k, v)]

/-- The `for func in window_func` loop of `_process_single_apply_group`:
each well-formed tuple stores one result column
`rolling_{label}_win_{window}` in the results dict; anything that is not a
tuple raises a TypeError. -/
def applyGroupFuncs (rows : List (List ℚ)) (w mp : Nat) (center : Bool) :
    List ApplyFunc → List (String × List (Option ℚ)) →
    Except String (List (String × List (Option ℚ)))
  | [], results => .ok results
  | .tup2 label g :: rest, results =>
      applyGroupFuncs rows w mp center rest
        (dictSet results ("rolling_" ++ label ++ "_win_" ++ toString w)
          (rollingApplyG g rows w center (some mp)))
  | .notTuple d :: _, _ =>
      .error ("Expected tuple, but got invalid function type: " ++ d)

/-- The `for window_size in window` loop of `_process_single_apply_group`,
with the same persistent resolution of `min_periods` as
`_process_single_roll`. -/
def applyGroupWindows (rows : List (List ℚ)) (center : Bool)
    (funcs : List ApplyFunc) :
    List Nat → Option Nat → List (String × List (Option ℚ)) →
    Except String (List (String × List (Option ℚ)))
  | [], _, results => .ok results
  | w :: rest, mp, results =>
      match applyGroupFuncs rows w (mp.getD w) center funcs results with
      | .error e => .error e
      | .ok results' => applyGroupWindows rows center funcs rest (some (mp.getD w)) results'

/-- Embedding of `_process_single_apply_group(args)` for one group whose rows
are `rows`: the result is the dict of new columns (each carrying the group's
index in the source; only the columns are modelled here). -/
def processSingleApplyGroup (rows : List (List ℚ)) (window : List Nat)
    (window_func : List ApplyFunc) (min_periods : Option Nat) (center : Bool) :
    Except String (List (String × List (Option ℚ))) :=
  applyGroupWindows rows center window_func window min_periods []

/-- A Python float as it enters the EWM collaborator: its printed form (used
in derived column names by the f-string) together with its numeric value. -/
structure PyFloat where
  txt : String
  val : ℚ
  deriving DecidableEq, Repr

/-- Embedding of `determine_decay_parameter(alpha, **kwargs)` from
exponential.py: `alpha` wins when given, otherwise the first of `com`,
`span`, `halflife` present in kwargs; `none` when no decay parameter was
supplied at all. -/
def determineDecayParameter (alpha : Option PyFloat)
    (kwargs : List (String × PyFloat)) : Option (String × PyFloat) :=
  match alpha with
  | some a => some ("alpha", a)
  | none =>
      (["com", "span", "halflife"].filterMap
        (fun p => (kwargs.lookup p).map (fun v => (p, v)))).head?

/-- Pandas `series.ewm(alpha=α, adjust=True).mean()`:
`y_i = (Σ_j (1-α)^j · x_(i-j)) / (Σ_j (1-α)^j)` over `j = 0..i`. -/
def ewmMean (alpha : ℚ) (xs : List ℚ) : List ℚ :=
  (List.range xs.length).map fun i =>
    let weights := (List.range (i + 1)).map fun k => (1 - alpha) ^ k
    let pre := (xs.take (i + 1)).reverse
    ((pre.zip weights).map fun p => p.1 * p.2).sum / weights.sum

/-- The effective smoothing factor pandas derives from the decay parameters:
`alpha` itself, `1/(1+com)`, or `2/(span+1)`.  The `halflife` weighting uses
an exponential that has no rational representation, so that path of the
model yields `none` (no claim exercises it numerically). -/
def ewmEffectiveAlpha (alpha : Option PyFloat)
    (kwargs : List (String × PyFloat)) : Option ℚ :=
  match alpha with
  | some a => some a.val
  | none =>
      match kwargs.lookup "com" with
      | some c => some (1 / (1 + c.val))
      | none =>
          match kwargs.lookup "span" with
          | some s => some (2 / (s.val + 1))
          | none => none

/-- One EWM window function applied to one value column.  The model carries
the `mean` reducer; any other name is treated as unknown and raises the
Invalid function name error, as the source does for names `getattr` cannot
resolve. -/
def ewmApplyFunc (effAlpha : Option ℚ) (name : String)
    (xs : List (Option ℚ)) : Except String (List (Option ℚ)) :=
  if name = "mean" then
    match effAlpha with
    | some a => .ok ((ewmMean a (xs.filterMap id)).map some)
    | none => .ok (List.replicate xs.length none)
  else
    .error ("Invalid function name: " ++ name)

/-- The `for func in window_func` loop inside `augment_ewm`, adding the
column `{value_col}_ewm_{func}_{decay_param}_{value}` per function. -/
def ewmFuncs (col : String) (decay_param : String) (v : PyFloat)
    (effAlpha : Option ℚ) :
    List String → Frame → Except (String × Frame) Frame
  | [], frame => .ok frame
  | f :: rest, frame =>
      match ewmApplyFunc effAlpha f (frame.get col) with
      | .error e => .error (e, frame)
      | .ok vals =>
          ewmFuncs col decay_param v effAlpha rest
            (frame.setCol
              (col ++ "_ewm_" ++ f ++ "_" ++ decay_param ++ "_" ++ v.txt) vals)

/-- The `for value_col in value_column` loop inside `augment_ewm`. -/
def ewmCols (decay_param : String) (v : PyFloat) (effAlpha : Option ℚ)
    (funcs : List String) :
    List String → Frame → Except (String × Frame) Frame
  | [], frame => .ok frame
  | c :: rest, frame =>
      match ewmFuncs c decay_param v effAlpha funcs frame with
      | .error e => .error e
      | .ok fr => ewmCols decay_param v effAlpha funcs rest fr

/-- Embedding of `augment_ewm(data, date_column, value_column, window_func,
alpha, **kwargs)` on a plain DataFrame (the single implicit group, standing
for the copy sorted by the date column).  The decay parameter is resolved
before the computation loop; when none is found the ValueError fires with
the frame untouched.  The processed frame is finally concatenated and
re-sorted by the original index. -/
def augmentEwm (df : Frame) (value_column : List String)
    (window_func : List String) (alpha : Option PyFloat)
    (kwargs : List (String × PyFloat)) : Except (String × Frame) Frame :=
  match determineDecayParameter alpha kwargs with
  | none =>
      .error ("No valid decay parameter provided. Specify alpha through function arguments, or one of com, span, or halflife through kwargs.",
              df)
  | some (decay_param, v) =>
      match ewmCols decay_param v (ewmEffectiveAlpha alpha kwargs)
              window_func value_column df with
      | .error e => .error e
      | .ok fr => .ok (sortIndexFrame (pdConcat [fr]))

/-! ### Helper lemmas -/

theorem Frame.setCol_index (df : Frame) (c : String) (v : List (Option ℚ)) :
    (df.setCol c v).index = df.index := by
  unfold Frame.setCol
  split <;> rfl

theorem applyRollFunc_index {col : String} {w mp : Nat} {center : Bool}
    {f : WindowFunc} {frame fr : Frame}
    (h : applyRollFunc col w mp center f frame = .ok fr) :
    fr.index = frame.index := by
  cases f with
  | str name =>
      cases hb : pandasBuiltin name with
      | some g =>
          simp only [applyRollFunc, hb] at h
          injection h with h2
          rw [← h2]
          exact Frame.setCol_index ..
      | none =>
          simp only [applyRollFunc, hb] at h
          exact Except.noConfusion h
  | pair label g =>
      injection h with h2
      rw [← h2]
      exact Frame.setCol_index ..
  | badTuple k => exact Except.noConfusion h
  | badFirst d => exact Except.noConfusion h

theorem rollFuncs_index {col : String} {w mp : Nat} {center : Bool} :
    ∀ {funcs : List WindowFunc} {frame fr : Frame},
    rollFuncs col w mp center funcs frame = .ok fr → fr.index = frame.index := by
  intro funcs
  induction funcs with
  | nil => intro frame fr h; cases h; rfl
  | cons f rest ih =>
      intro frame fr h
      unfold rollFuncs at h
      cases ha : applyRollFunc col w mp center f frame with
      | error e => rw [ha] at h; cases h
      | ok fr1 =>
          rw [ha] at h
          exact (ih h).trans (applyRollFunc_index ha)

theorem rollWindows_index {col : String} {center : Bool}
    {funcs : List WindowFunc} :
    ∀ {window : List Nat} {mp mp' : Option Nat} {frame fr : Frame},
    rollWindows col center funcs window mp frame = .ok (fr, mp') →
    fr.index = frame.index := by
  intro window
  induction window with
  | nil => intro mp mp' frame fr h; cases h; rfl
  | cons w rest ih =>
      intro mp mp' frame fr h
      unfold rollWindows at h
      cases ha : rollFuncs col w (mp.getD w) center funcs frame with
      | error e => rw [ha] at h; cases h
      | ok fr1 =>
          rw [ha] at h
          exact (ih h).trans (rollFuncs_index ha)

theorem rollCols_index {center : Bool} {funcs : List WindowFunc}
    {window : List Nat} :
    ∀ {vc : List String} {mp mp' : Option Nat} {frame fr : Frame},
    rollCols center funcs window vc mp frame = .ok (fr, mp') →
    fr.index = frame.index := by
  intro vc
  induction vc with
  | nil => intro mp mp' frame fr h; cases h; rfl
  | cons c rest ih =>
      intro mp mp' frame fr h
      unfold rollCols at h
      cases ha : rollWindows c center funcs window mp frame with
      | error e => rw [ha] at h; cases h
      | ok p =>
          rw [ha] at h
          exact (ih h).trans (rollWindows_index ha)

theorem processSingleRoll_single_index {df : Frame} {c : String}
    {funcs : List WindowFunc} {window : List Nat} {mp : Option Nat}
    {center : Bool} {r : Frame}
    (h : processSingleRoll df [c] funcs window mp center = .ok r) :
    r.index = df.index := by
  unfold processSingleRoll at h
  cases ha : rollCols center funcs window [c] mp df with
  | error e => rw [ha] at h; cases h
  | ok p =>
      rw [ha] at h
      cases h
      exact rollCols_index ha

theorem insRow_of_forall_lt {p : Nat × Nat} :
    ∀ {l : List (Nat × Nat)}, (∀ q ∈ l, p.1 < q.1) → insRow p l = p :: l := by
  intro l h
  cases l with
  | nil => rfl
  | cons q rest =>
      unfold insRow
      rw [if_pos (h q (List.mem_cons_self q rest))]

theorem sortRows_of_pairwise :
    ∀ {l : List (Nat × Nat)}, l.Pairwise (fun a b => a.1 < b.1) →
    sortRows l = l := by
  intro l
  induction l with
  | nil => intro _; rfl
  | cons p rest ih =>
      intro h
      rw [List.pairwise_cons] at h
      unfold sortRows
      rw [ih h.2, insRow_of_forall_lt h.1]

theorem pairwise_fst_zip {idx : List Nat} :
    ∀ {l : List Nat}, idx.Pairwise (· < ·) →
    (idx.zip l).Pairwise (fun a b : Nat × Nat => a.1 < b.1) := by
  induction idx with
  | nil => intro l _; simp
  | cons a idx ih =>
      intro l h
      cases l with
      | nil => simp
      | cons b l =>
          rw [List.pairwise_cons] at h
          rw [List.zip_cons_cons, List.pairwise_cons]
          refine ⟨?_, ih h.2⟩
          intro q hq
          exact h.1 q.1 (List.of_mem_zip hq).1

theorem sortIndexFrame_index_of_monotone {df : Frame}
    (h : df.index.Pairwise (· < ·)) :
    (sortIndexFrame df).index = df.index := by
  show (sortRows (df.index.zip (List.range df.index.length))).map Prod.fst
         = df.index
  rw [sortRows_of_pairwise (pairwise_fst_zip h)]
  exact List.map_fst_zip _ _ (by simp)

theorem rollFuncs_badTuple (col : String) (w mp : Nat) (center : Bool)
    (k : Nat) :
    ∀ {funcs : List WindowFunc}, WindowFunc.badTuple k ∈ funcs →
    ∀ frame, ∃ e, rollFuncs col w mp center funcs frame = .error e := by
  intro funcs
  induction funcs with
  | nil => intro h; cases h
  | cons f rest ih =>
      intro h frame
      rcases List.mem_cons.mp h with h1 | h2
      · subst h1
        exact ⟨_, rfl⟩
      · unfold rollFuncs
        cases ha : applyRollFunc col w mp center f frame with
        | error e => exact ⟨e, rfl⟩
        | ok fr =>
            obtain ⟨e, he⟩ := ih h2 fr
            exact ⟨e, he⟩

theorem rollFuncs_unknown_name (col : String) (w mp : Nat) (center : Bool)
    (name : String) (hn : pandasBuiltin name = none) :
    ∀ {funcs : List WindowFunc}, WindowFunc.str name ∈ funcs →
    ∀ frame, ∃ e, rollFuncs col w mp center funcs frame = .error e := by
  intro funcs
  induction funcs with
  | nil => intro h; cases h
  | cons f rest ih =>
      intro h frame
      rcases List.mem_cons.mp h with h1 | h2
      · subst h1
        simp only [rollFuncs, applyRollFunc, hn]
        exact ⟨_, rfl⟩
      · unfold rollFuncs
        cases ha : applyRollFunc col w mp center f frame with
        | error e => exact ⟨e, rfl⟩
        | ok fr =>
            obtain ⟨e, he⟩ := ih h2 fr
            exact ⟨e, he⟩

/-! ### Claim theorems -/

/-- C1: the claim asserts row preservation for every valid call, in
particular when `value_column` is a list of two or more columns with the
pandas engine.  The code violates this: `_process_single_roll` appends the
(continuously mutated) group frame to `result_dfs` once per value column and
concatenates, so a plain 2-row table with value columns `a` and `b` comes
back with 4 rows — every input row duplicated — instead of the original two
rows `[0, 1]`. -/
theorem c1_multi_value_column_duplicates_rows :
    (augmentRollingPandasUngrouped
        ⟨[0, 1], [("a", [some 1, some 2]), ("b", [some 3, some 4])]⟩
        ["a", "b"] [.str "mean"] (.list [2]) none false).map Frame.index
      = .ok [0, 0, 1, 1] ∧ ([0, 0, 1, 1] : List Nat) ≠ [0, 1] :=
  ⟨rfl, by decide⟩

/-- C2 counterexample: on a plain table whose index is `[1, 0]` (not
monotonically increasing), the pandas engine's final
`pd.concat(result_dfs).sort_index()` returns the rows in index-sorted order
`[0, 1]`, not in the input's original order `[1, 0]`. -/
theorem c2_nonmonotone_index_is_reordered :
    (augmentRollingPandasUngrouped ⟨[1, 0], [("a", [some 5, some 6])]⟩
        ["a"] [.str "mean"] (.list [2]) none false).map Frame.index
      = .ok [0, 1] ∧ ([0, 1] : List Nat) ≠ [1, 0] :=
  ⟨rfl, by decide⟩

/-- C2 amended: the output rows of a successful single-value-column
`augment_rolling` call (pandas engine, plain table) are the input rows
sorted ascending by index value; whenever the input index is strictly
increasing — as for the default range index — this coincides with the
input's original row order. -/
theorem c2_row_order_matches_for_monotone_index
    (df : Frame) (c : String) (funcs : List WindowFunc) (ws : List Nat)
    (mp : Option Nat) (center : Bool) (r : Frame)
    (hmono : df.index.Pairwise (· < ·))
    (hok : augmentRollingPandasUngrouped df [c] funcs (.list ws) mp center
             = .ok r) :
    r.index = df.index := by
  simp only [augmentRollingPandasUngrouped, normalizeWindow] at hok
  cases hp : processSingleRoll df [c] funcs ws mp center with
  | error e => rw [hp] at hok; exact Except.noConfusion hok
  | ok r0 =>
      rw [hp] at hok
      injection hok with h2
      rw [← h2]
      have hidx : r0.index = df.index := processSingleRoll_single_index hp
      show (sortIndexFrame (pdConcat [r0])).index = df.index
      have : pdConcat [r0] = r0 := rfl
      rw [this, sortIndexFrame_index_of_monotone (hidx ▸ hmono), hidx]

/-- C2 amended, witnessed at a concrete input: a 2-row table with the
strictly increasing index `[0, 1]` keeps its row order. -/
theorem c2_row_order_matches_for_monotone_index_witness :
    ([0, 1] : List Nat).Pairwise (· < ·) ∧
    (⟨[0, 1],
      [("a", [some 1, some 2]),
       ("a_rolling_mean_win_2", [none, some (3/2)])]⟩ : Frame).index
      = (⟨[0, 1], [("a", [some 1, some 2])]⟩ : Frame).index :=
  ⟨by decide,
   c2_row_order_matches_for_monotone_index
     ⟨[0, 1], [("a", [some 1, some 2])]⟩ "a" [.str "mean"] [2] none false
     ⟨[0, 1],
      [("a", [some 1, some 2]),
       ("a_rolling_mean_win_2", [none, some (3/2)])]⟩
     (by decide)
     (by norm_num +decide [augmentRollingPandasUngrouped, normalizeWindow,
           processSingleRoll, rollCols, rollWindows, rollFuncs, applyRollFunc,
           pandasBuiltin, pdRollingAgg, Frame.setCol, Frame.get, qmean,
           pdConcat, sortIndexFrame, sortRows, insRow, List.range_succ,
           List.lookup, List.filterMap, Except.map, beq_iff_eq])⟩

/-- C3: the claim (and the docstring of `augment_rolling`) says that with
`min_periods` unspecified every execution unit uses its own window size as
the threshold.  The code instead reassigns the `min_periods` parameter on
the first window iteration, so with windows `[2, 7]` the window-7 column is
computed with `min_periods = 2`: at row 1 of an 8-row group `1..8` the code
produces `mean(1, 2) = 3/2` instead of a missing value, and the whole
window-7 column differs from the same rolling aggregation performed with
`min_periods = 7` as the claim requires. -/
theorem c3_min_periods_frozen_at_first_window :
    (processSingleRoll
        ⟨[0, 1, 2, 3, 4, 5, 6, 7],
         [("v", [some 1, some 2, some 3, some 4, some 5, some 6, some 7, some 8])]⟩
        ["v"] [.str "mean"] [2, 7] none false).map
        (fun r => r.get "v_rolling_mean_win_7")
      = .ok [none, some (3/2), some 2, some (5/2), some 3, some (7/2), some 4, some 5] ∧
    ([none, some (3/2), some 2, some (5/2), some 3, some (7/2), some 4, some 5] :
        List (Option ℚ))
      ≠ pdRollingAgg qmean 7 7 false
          [some 1, some 2, some 3, some 4, some 5, some 6, some 7, some 8] := by
  constructor
  · norm_num +decide [processSingleRoll, rollCols, rollWindows, rollFuncs,
      applyRollFunc, pandasBuiltin, pdRollingAgg, Frame.setCol, Frame.get,
      qmean, pdConcat, List.range_succ, List.lookup, List.filterMap,
      Except.map, beq_iff_eq]
    rfl
  · norm_num [pdRollingAgg, qmean, List.range_succ, List.filterMap]
    intro h1
    exact Option.noConfusion h1

/-- C4: the row-wise rolling engine with trailing windows evaluates the user
function at row `i` on exactly the rows `[max(0, i-W+1), i]` (expressed as
`(xs.take (i+1)).drop (i+1-W)` on `Nat`), storing the result at row `i`
exactly when that range holds at least `M` rows; and on the group
`[10, 20, 29, 42, 53]` with `W = 3`, `M = 3` and the mean, rows 0 and 1 are
missing and rows 2, 3, 4 carry `59/3`, `91/3`, `124/3`. -/
theorem c4_trailing_window_semantics :
    (∀ (α : Type) (f : List α → ℚ) (xs : List α) (W M i : Nat),
      0 < W → i < xs.length →
      (rollingApplyG f xs W false (some M))[i]? =
        some (if M ≤ ((xs.take (i + 1)).drop (i + 1 - W)).length
              then some (f ((xs.take (i + 1)).drop (i + 1 - W))) else none)) ∧
    rollingApplyG qmean [10, 20, 29, 42, 53] 3 false (some 3)
      = [none, none, some (59/3), some (91/3), some (124/3)] := by
  constructor
  · intro α f xs W M i hW hi
    have harg : i - (W - 1) = i + 1 - W := by omega
    simp [rollingApplyG, List.getElem?_range hi, harg, List.drop_take]
  · norm_num [rollingApplyG, qmean, List.range_succ]

/-- C4 witness: the trailing-window characterisation applied at the group
`[10, 20, 29, 42, 53]`, `W = 3`, `M = 3`, row 2. -/
theorem c4_trailing_window_semantics_witness :
    0 < 3 ∧ 2 < ([10, 20, 29, 42, 53] : List ℚ).length ∧
    (rollingApplyG qmean [10, 20, 29, 42, 53] 3 false (some 3))[2]? =
      some (if 3 ≤ ((([10, 20, 29, 42, 53] : List ℚ).take (2 + 1)).drop (2 + 1 - 3)).length
            then some (qmean ((([10, 20, 29, 42, 53] : List ℚ).take (2 + 1)).drop (2 + 1 - 3)))
            else none) :=
  ⟨by decide, by decide,
   c4_trailing_window_semantics.1 ℚ qmean [10, 20, 29, 42, 53] 3 3 2
     (by decide) (by decide)⟩

/-- C5: the row-wise rolling engine with centering evaluates row `i` on the
rows `[i-⌊W/2⌋, i+⌊W/2⌋]` clipped to the group for odd `W`, and on the
left-biased rows `[i-W/2, i+W/2-1]` clipped to the group for even `W`,
subject to the minimum-period threshold on the clipped window; in
particular `W = 2` centered at `i = 1` of `[0, 10, 100]` uses rows 0 and 1
(mean 5), not rows 1 and 2 (mean 55). -/
theorem c5_centered_window_semantics :
    (∀ (α : Type) (f : List α → ℚ) (xs : List α) (W M i : Nat),
      i < xs.length →
      (rollingApplyG f xs W true (some M))[i]? =
        some
          (if W % 2 = 0 then
            (if M ≤ ((xs.take (min xs.length (i + W / 2))).drop (i - W / 2)).length
             then some (f ((xs.take (min xs.length (i + W / 2))).drop (i - W / 2)))
             else none)
           else
            (if M ≤ ((xs.take (min xs.length (i + W / 2 + 1))).drop (i - W / 2)).length
             then some (f ((xs.take (min xs.length (i + W / 2 + 1))).drop (i - W / 2)))
             else none))) ∧
    rollingApplyG qmean [0, 10, 100] 2 true (some 2) = [none, some 5, some 55] := by
  constructor
  · intro α f xs W M i hi
    by_cases h2 : W % 2 = 0
    · simp [rollingApplyG, List.getElem?_range hi, h2, List.drop_take]
    · simp [rollingApplyG, List.getElem?_range hi, h2, List.drop_take]
  · norm_num [rollingApplyG, qmean, List.range_succ]

/-- C5 witness: the centered-window characterisation applied at the group
`[0, 10, 100]`, even `W = 2`, `M = 2`, row 1. -/
theorem c5_centered_window_semantics_witness :
    1 < ([0, 10, 100] : List ℚ).length ∧
    (rollingApplyG qmean [0, 10, 100] 2 true (some 2))[1]? =
      some
        (if 2 % 2 = 0 then
          (if 2 ≤ ((([0, 10, 100] : List ℚ).take (min ([0, 10, 100] : List ℚ).length (1 + 2 / 2))).drop (1 - 2 / 2)).length
           then some (qmean ((([0, 10, 100] : List ℚ).take (min ([0, 10, 100] : List ℚ).length (1 + 2 / 2))).drop (1 - 2 / 2)))
           else none)
         else
          (if 2 ≤ ((([0, 10, 100] : List ℚ).take (min ([0, 10, 100] : List ℚ).length (1 + 2 / 2 + 1))).drop (1 - 2 / 2)).length
           then some (qmean ((([0, 10, 100] : List ℚ).take (min ([0, 10, 100] : List ℚ).length (1 + 2 / 2 + 1))).drop (1 - 2 / 2)))
           else none)) :=
  ⟨by decide,
   c5_centered_window_semantics.1 ℚ qmean [0, 10, 100] 2 2 1 (by decide)⟩

/-- C6: the claim demands numerically equal pandas/polars results for the
builtin mean under identical `(window, min_periods, center)` settings.  The
polars engine receives the `center` flag but never forwards it to the
rolling expression it builds, so for `center = true` the pandas engine
computes the centered column `[missing, 2, missing]` on `[1, 2, 3]` with
window 3 while the polars expression computes the trailing column
`[missing, missing, 2]` — the backends disagree. -/
theorem c6_polars_engine_drops_center_flag :
    (processSingleRoll ⟨[0, 1, 2], [("v", [some 1, some 2, some 3])]⟩ ["v"]
        [.str "mean"] [3] none true).map (fun r => r.get "v_rolling_mean_win_3")
      = .ok (pdRollingAgg qmean 3 3 true [some 1, some 2, some 3]) ∧
    pdRollingAgg qmean 3 3 true [some 1, some 2, some 3] = [none, some 2, none] ∧
    polarsEngineMeanExpr 3 none true [some 1, some 2, some 3] = [none, none, some 2] ∧
    ([none, some 2, none] : List (Option ℚ)) ≠ [none, none, some 2] := by
  refine ⟨rfl, ?_, ?_, by decide⟩
  · norm_num [pdRollingAgg, qmean, List.range_succ, List.filterMap]
  · norm_num [polarsEngineMeanExpr, plRollingMean, qmean, List.range_succ,
      List.filterMap]

/-- C7: an `augment_rolling` call (pandas engine) with value columns
`[A, B]`, windows `[2, 3]` and functions `[mean, sum]` adds exactly the
2×2×2 = 8 cross-product columns named
`{value_column}_rolling_{function}_win_{window}` — nothing else — and those
derived names are pairwise distinct. -/
theorem c7_cross_product_column_names :
    (augmentRollingPandasUngrouped
        ⟨[0, 1, 2], [("A", [some 1, some 2, some 3]), ("B", [some 4, some 5, some 6])]⟩
        ["A", "B"]
        [.str "mean", .str "sum"] (.list [2, 3]) none false).map
        (fun r => r.cols.map Prod.fst)
      = .ok ["A", "B",
             "A_rolling_mean_win_2", "A_rolling_sum_win_2",
             "A_rolling_mean_win_3", "A_rolling_sum_win_3",
             "B_rolling_mean_win_2", "B_rolling_sum_win_2",
             "B_rolling_mean_win_3", "B_rolling_sum_win_3"] ∧
    (["A_rolling_mean_win_2", "A_rolling_sum_win_2",
      "A_rolling_mean_win_3", "A_rolling_sum_win_3",
      "B_rolling_mean_win_2", "B_rolling_sum_win_2",
      "B_rolling_mean_win_3", "B_rolling_sum_win_3"] : List String).Nodup :=
  ⟨rfl, by decide⟩

/-- C8 counterexample: a malformed function tuple (length 3) placed after
the builtin `mean` in `window_func` does raise, but only when the execution
plan reaches it — the error state carries the already-computed
`a_rolling_mean_win_2` column, so rolling computation had started before the
specification error fired, contrary to the claim that no output value has
been computed at that point. -/
theorem c8_function_error_fires_after_computation :
    augmentRollingPandasUngrouped ⟨[0, 1], [("a", [some 1, some 2])]⟩ ["a"]
        [.str "mean", .badTuple 3] (.list [2]) none false
      = .error ("Expected tuple of length 2, but window_func received tuple of length 3",
          ⟨[0, 1], [("a", [some 1, some 2]),
                    ("a_rolling_mean_win_2", [none, some (3/2)])]⟩) ∧
    (⟨[0, 1], [("a", [some 1, some 2]),
               ("a_rolling_mean_win_2", [none, some (3/2)])]⟩ : Frame).cols.length
      ≠ (⟨[0, 1], [("a", [some 1, some 2])]⟩ : Frame).cols.length := by
  constructor
  · norm_num +decide [augmentRollingPandasUngrouped, normalizeWindow,
      processSingleRoll, rollCols, rollWindows, rollFuncs, applyRollFunc,
      pandasBuiltin, pdRollingAgg, Frame.setCol, Frame.get, qmean, pdConcat,
      List.range_succ, List.lookup, List.filterMap, beq_iff_eq]
  · decide

/-- C8 amended: a window spec of an invalid type is rejected in
`augment_rolling` itself, before any engine computation, with the input
frame untouched; a malformed function tuple or an unknown function name
anywhere in a non-trivial plan makes the whole pandas-engine call abort
with an error — no output frame is ever returned — although these two
errors fire only when the plan reaches the offending function, by which
time units earlier in the loop order have already been computed, as the
unknown-name instance in the last conjunct shows (its error state carries
the already-computed mean column). -/
theorem c8_specification_errors_abort_call :
    (∀ (df : Frame) (vc : List String) (funcs : List WindowFunc) (d : String)
        (mp : Option Nat) (center : Bool),
      augmentRollingPandasUngrouped df vc funcs (.other d) mp center
        = .error ("window must be an integer, tuple, or list.", df)) ∧
    (∀ (df : Frame) (vc : List String) (funcs : List WindowFunc) (ws : List Nat)
        (mp : Option Nat) (center : Bool) (k : Nat),
      vc ≠ [] → ws ≠ [] → WindowFunc.badTuple k ∈ funcs →
      okB (augmentRollingPandasUngrouped df vc funcs (.list ws) mp center)
        = false) ∧
    (∀ (df : Frame) (vc : List String) (funcs : List WindowFunc) (ws : List Nat)
        (mp : Option Nat) (center : Bool) (name : String),
      vc ≠ [] → ws ≠ [] → pandasBuiltin name = none →
      WindowFunc.str name ∈ funcs →
      okB (augmentRollingPandasUngrouped df vc funcs (.list ws) mp center)
        = false) ∧
    augmentRollingPandasUngrouped ⟨[0, 1], [("a", [some 1, some 2])]⟩ ["a"]
        [.str "mean", .str "bogus"] (.list [2]) none false
      = .error ("Invalid function name: bogus",
          ⟨[0, 1], [("a", [some 1, some 2]),
                    ("a_rolling_mean_win_2", [none, some (3/2)])]⟩) := by
  refine ⟨?_, ?_, ?_, ?_⟩
  · intro df vc funcs d mp center
    rfl
  · intro df vc funcs ws mp center k hvc hws hmem
    obtain ⟨c, vc', rfl⟩ : ∃ c vc', vc = c :: vc' := by
      cases vc with
      | nil => exact absurd rfl hvc
      | cons a b => exact ⟨a, b, rfl⟩
    obtain ⟨w, ws', rfl⟩ : ∃ w ws', ws = w :: ws' := by
      cases ws with
      | nil => exact absurd rfl hws
      | cons a b => exact ⟨a, b, rfl⟩
    obtain ⟨e, he⟩ := rollFuncs_badTuple c w (mp.getD w) center k hmem df
    simp only [augmentRollingPandasUngrouped, normalizeWindow,
      processSingleRoll, rollCols, rollWindows, he, okB]
  · intro df vc funcs ws mp center name hvc hws hn hmem
    obtain ⟨c, vc', rfl⟩ : ∃ c vc', vc = c :: vc' := by
      cases vc with
      | nil => exact absurd rfl hvc
      | cons a b => exact ⟨a, b, rfl⟩
    obtain ⟨w, ws', rfl⟩ : ∃ w ws', ws = w :: ws' := by
      cases ws with
      | nil => exact absurd rfl hws
      | cons a b => exact ⟨a, b, rfl⟩
    obtain ⟨e, he⟩ := rollFuncs_unknown_name c w (mp.getD w) center name hn hmem df
    simp only [augmentRollingPandasUngrouped, normalizeWindow,
      processSingleRoll, rollCols, rollWindows, he, okB]
  · norm_num +decide [augmentRollingPandasUngrouped, normalizeWindow,
      processSingleRoll, rollCols, rollWindows, rollFuncs, applyRollFunc,
      pandasBuiltin, pdRollingAgg, Frame.setCol, Frame.get, qmean, pdConcat,
      List.range_succ, List.lookup, List.filterMap, beq_iff_eq]

/-- C8 amended, witnessed: the malformed-tuple abort and the unknown-name
abort applied at concrete calls. -/
theorem c8_specification_errors_abort_call_witness :
    (["a"] : List String) ≠ [] ∧ ([2] : List Nat) ≠ [] ∧
    WindowFunc.badTuple 3 ∈ [WindowFunc.str "mean", WindowFunc.badTuple 3] ∧
    pandasBuiltin "bogus" = none ∧
    WindowFunc.str "bogus" ∈ [WindowFunc.str "mean", WindowFunc.str "bogus"] ∧
    okB (augmentRollingPandasUngrouped ⟨[0, 1], [("a", [some 1, some 2])]⟩
          ["a"] [WindowFunc.str "mean", WindowFunc.badTuple 3] (.list [2])
          none false) = false ∧
    okB (augmentRollingPandasUngrouped ⟨[0, 1], [("a", [some 1, some 2])]⟩
          ["a"] [WindowFunc.str "mean", WindowFunc.str "bogus"] (.list [2])
          none false) = false :=
  ⟨by decide, by decide, List.Mem.tail _ (List.Mem.head _), rfl,
   List.Mem.tail _ (List.Mem.head _),
   c8_specification_errors_abort_call.2.1
     ⟨[0, 1], [("a", [some 1, some 2])]⟩ ["a"]
     [WindowFunc.str "mean", WindowFunc.badTuple 3] [2] none false 3
     (by decide) (by decide) (List.Mem.tail _ (List.Mem.head _)),
   c8_specification_errors_abort_call.2.2.1
     ⟨[0, 1], [("a", [some 1, some 2])]⟩ ["a"]
     [WindowFunc.str "mean", WindowFunc.str "bogus"] [2] none false "bogus"
     (by decide) (by decide) rfl (List.Mem.tail _ (List.Mem.head _))⟩

/-- C9: `augment_ewm` resolves the decay parameter before its computation
loop, raising the ValueError with the frame untouched whenever `alpha` is
absent and none of `com`, `span`, `halflife` appears in kwargs; and with
`alpha = 0.1` it succeeds, appending exactly one column per
(value column, function) pair named `{value_col}_ewm_{func}_alpha_0.1`. -/
theorem c9_ewm_decay_parameter_contract :
    (∀ (df : Frame) (vc funcs : List String) (kwargs : List (String × PyFloat)),
      kwargs.lookup "com" = none → kwargs.lookup "span" = none →
      kwargs.lookup "halflife" = none →
      augmentEwm df vc funcs none kwargs
        = .error ("No valid decay parameter provided. Specify alpha through function arguments, or one of com, span, or halflife through kwargs.",
            df)) ∧
    augmentEwm ⟨[0, 1], [("x", [some 1, some 2]), ("y", [some 3, some 4])]⟩
        ["x", "y"] ["mean"] (some ⟨"0.1", 1/10⟩) []
      = .ok ⟨[0, 1],
          [("x", [some 1, some 2]), ("y", [some 3, some 4]),
           ("x_ewm_mean_alpha_0.1", [some 1, some (29/19)]),
           ("y_ewm_mean_alpha_0.1", [some 3, some (67/19)])]⟩ := by
  constructor
  · intro df vc funcs kwargs h1 h2 h3
    have hd : determineDecayParameter none kwargs = none := by
      simp [determineDecayParameter, h1, h2, h3]
    simp [augmentEwm, hd]
  · norm_num +decide [augmentEwm, determineDecayParameter, ewmEffectiveAlpha,
      ewmCols, ewmFuncs, ewmApplyFunc, ewmMean, Frame.setCol, Frame.get,
      sortIndexFrame, sortRows, insRow, pdConcat, List.range_succ,
      List.lookup, List.filterMap, beq_iff_eq]

/-- C9 witness: the no-decay-parameter error applied at a concrete call with
empty kwargs. -/
theorem c9_ewm_decay_parameter_contract_witness :
    ([] : List (String × PyFloat)).lookup "com" = none ∧
    ([] : List (String × PyFloat)).lookup "span" = none ∧
    ([] : List (String × PyFloat)).lookup "halflife" = none ∧
    augmentEwm ⟨[0], [("x", [some 1])]⟩ ["x"] ["mean"] none []
      = .error ("No valid decay parameter provided. Specify alpha through function arguments, or one of com, span, or halflife through kwargs.",
          ⟨[0], [("x", [some 1])]⟩) :=
  ⟨rfl, rfl, rfl,
   c9_ewm_decay_parameter_contract.1 ⟨[0], [("x", [some 1])]⟩ ["x"] ["mean"]
     [] rfl rfl rfl⟩

/-- C10: every column `_process_single_apply_group` produces is named
`rolling_{label}_win_{window}` with no value-column part; the results dict
is keyed by that name alone, so two functions sharing a label and a window
produce exactly one column (the later function wins), while distinct labels
produce one column each. -/
theorem c10_apply_naming_and_label_collision :
    (∀ (rows : List (List ℚ)) (L : String) (W : Nat)
        (g h : List (List ℚ) → ℚ),
      processSingleApplyGroup rows [W] [.tup2 L g, .tup2 L h] none false
        = .ok [("rolling_" ++ L ++ "_win_" ++ toString W,
                rollingApplyG h rows W false (some W))]) ∧
    (∀ (rows : List (List ℚ)) (g h : List (List ℚ) → ℚ),
      processSingleApplyGroup rows [3] [.tup2 "corr" g, .tup2 "reg" h] none false
        = .ok [("rolling_corr_win_3", rollingApplyG g rows 3 false (some 3)),
               ("rolling_reg_win_3", rollingApplyG h rows 3 false (some 3))]) := by
  constructor
  · intro rows L W g h
    simp [processSingleApplyGroup, applyGroupWindows, applyGroupFuncs, dictSet]
  · intro rows g h
    rfl

end PyTimeTk
